import Mathlib

/-!
Verification of the Closetly wardrobe engine (contexts/WardrobeEngine.js and
contexts/WardrobeContext.js).

Modelling conventions for the shallow embedding:
* JS numbers holding item counts are modelled as `Int` (the source never
  truncates them, and several code paths can drive them negative).
* Timestamps (`Date.now()`, `new Date().toISOString()`, `completedAt`) are
  modelled at day granularity as `Int` day numbers; the ambient clock is an
  explicit `now`/`today` argument.  `null` dates are `Option.getD · 0`
  (JS `new Date(null)` is the epoch).
* `Math.ceil(n * 0.2)` and `Math.ceil(n * 0.4)` on an integer `n` agree with
  the exact ceilings of `n/5` and `2*n/5` for every `n` in the double range
  (the rounding error of `0.2`/`0.4` as doubles is below half an ulp of the
  product), so they are embedded as exact integer ceilings.
* JS objects used as name-to-count maps are association lists
  `List (String × Int)`; `obj[k] || 0` is `lookupOr0`.
* `x || 2` on a JS number is `if x = 0 then 2 else x` (only `0`/`-0` are
  falsy among the values reaching it).
-/

namespace Closetly

/-- `bag[name] || 0`: first binding of `name` in the association list, else 0. -/
def lookupOr0 (m : List (String × Int)) (k : String) : Int :=
  match m.find? (fun kv => kv.1 = k) with
  | some kv => kv.2
  | none => 0

/-- Exact `⌈a / b⌉` for `b > 0`, the value of `Math.ceil(a * (1/b))` on integer
inputs in the double range. -/
def jsCeilDiv (a b : Int) : Int := -(Int.ediv (-a) b)

/-- JS `x || 2` on the result of a `Math.ceil` call: `0` (and `-0`) are falsy. -/
def jsOr2 (x : Int) : Int := if x = 0 then 2 else x

/-- JS `Math.round` on a rational: half-up rounding, `⌊x + 1/2⌋`. -/
def jsRoundQ (x : ℚ) : Int := ⌊x + 1/2⌋

/-- `Math.max(...l)` for the nonempty lists it is applied to (JS gives
`-Infinity` on an empty spread; every call site guards nonemptiness). -/
def listMax : List Int → Int
  | [] => 0
  | a :: rest => rest.foldl max a

/-- `Math.min(...l)` for the nonempty lists it is applied to. -/
def listMin : List Int → Int
  | [] => 0
  | a :: rest => rest.foldl min a

/-- One `{date, count}` element of `wearHistory`. -/
structure WearEntry where
  date : Int
  count : Int
  deriving Repr, DecidableEq

/-- One `{date, count, price}` element of `purchaseHistory`. -/
structure PurchaseEntry where
  date : Int
  count : Int
  price : ℚ
  deriving Repr, DecidableEq

/-- One `{date, count, reason}` element of `retirementHistory`. -/
structure RetirementEntry where
  date : Int
  count : Int
  reason : String
  deriving Repr, DecidableEq

/-- The Category record of WardrobeEngine.js. -/
@[ext]
structure Category where
  id : String
  name : String
  emoji : String
  totalOwned : Int
  cleanCount : Int
  dirtyCount : Int
  inLaundryCount : Int
  safetyThreshold : Int
  hibernated : Bool
  wearHistory : List WearEntry
  purchaseHistory : List PurchaseEntry
  retirementHistory : List RetirementEntry
  lastWornDate : Option Int
  avgWearFrequency : ℚ
  maxBatchSize : Int
  deriving Repr, DecidableEq, Inhabited

/-- `createDefaultCategory(id, name, emoji, totalOwned = 0)`. -/
def createDefaultCategory (id name emoji : String) (totalOwned : Int := 0) : Category :=
  { id := id
    name := name
    emoji := emoji
    totalOwned := totalOwned
    cleanCount := totalOwned
    dirtyCount := 0
    inLaundryCount := 0
    safetyThreshold := jsOr2 (jsCeilDiv totalOwned 5)
    hibernated := false
    wearHistory := []
    purchaseHistory := []
    retirementHistory := []
    lastWornDate := none
    avgWearFrequency := 0
    maxBatchSize := jsOr2 (jsCeilDiv (2 * totalOwned) 5) }

/-- Body of the `categories.map` in `processItemToss`. -/
def tossOne (now : Int) (categoryId : String) (count : Int) (cat : Category) : Category :=
  if cat.id ≠ categoryId then cat
  else
    let toToss := min count cat.cleanCount
    { cat with
        lastWornDate := some now
        wearHistory := cat.wearHistory ++ [{ date := now, count := toToss }] }

/-- `processItemToss(categories, categoryId, count = 1)`: records a wear event,
leaving every count untouched. -/
def processItemToss (now : Int) (categories : List Category) (categoryId : String)
    (count : Int := 1) : List Category :=
  categories.map (tossOne now categoryId count)

/-- Body of the `categories.map` in `processBatchDispatch`. -/
def dispatchOne (bagContents : List (String × Int)) (cat : Category) : Category :=
  let countInBag := lookupOr0 bagContents cat.name
  if countInBag = 0 then cat
  else
    let toDispatch := min countInBag cat.cleanCount
    if toDispatch = 0 then cat
    else
      { cat with
          cleanCount := max 0 (cat.cleanCount - toDispatch)
          dirtyCount := cat.dirtyCount + toDispatch
          inLaundryCount := cat.inLaundryCount + toDispatch }

/-- `processBatchDispatch(categories, bagContents)`. -/
def processBatchDispatch (categories : List Category)
    (bagContents : List (String × Int)) : List Category :=
  categories.map (dispatchOne bagContents)

/-- Body of the `categories.map` in `processBatchComplete`. -/
def completeOne (batchContents : List (String × Int)) (cat : Category) : Category :=
  let countInBatch := lookupOr0 batchContents cat.name
  if countInBatch = 0 then cat
  else
    { cat with
        inLaundryCount := max 0 (cat.inLaundryCount - countInBatch)
        dirtyCount := max 0 (cat.dirtyCount - countInBatch)
        cleanCount := cat.cleanCount + countInBatch }

/-- `processBatchComplete(categories, batchContents)`. -/
def processBatchComplete (categories : List Category)
    (batchContents : List (String × Int)) : List Category :=
  categories.map (completeOne batchContents)

/-- Body of the `categories.map` in `processItemAcquisition`. -/
def acquireOne (now : Int) (categoryId : String) (count : Int) (price : ℚ)
    (cat : Category) : Category :=
  if cat.id ≠ categoryId then cat
  else
    let newTotal := cat.totalOwned + count
    { cat with
        totalOwned := newTotal
        cleanCount := cat.cleanCount + count
        safetyThreshold := jsOr2 (jsCeilDiv newTotal 5)
        maxBatchSize := jsOr2 (jsCeilDiv (2 * newTotal) 5)
        purchaseHistory := cat.purchaseHistory ++ [{ date := now, count := count, price := price }] }

/-- `processItemAcquisition(categories, categoryId, count = 1, price = 0)`. -/
def processItemAcquisition (now : Int) (categories : List Category) (categoryId : String)
    (count : Int := 1) (price : ℚ := 0) : List Category :=
  categories.map (acquireOne now categoryId count price)

/-- Body of the `categories.map` in `processItemRetirement`. -/
def retireOne (now : Int) (categoryId : String) (count : Int) (reason : String)
    (cat : Category) : Category :=
  if cat.id ≠ categoryId then cat
  else
    let toRetire := min count cat.totalOwned
    let newTotal := max 0 (cat.totalOwned - toRetire)
    let retireFromClean := min toRetire cat.cleanCount
    let newCleanCount := cat.cleanCount - retireFromClean
    let remaining1 := toRetire - retireFromClean
    let retireFromDirty := min remaining1 cat.dirtyCount
    let newDirtyCount := cat.dirtyCount - retireFromDirty
    let remaining2 := remaining1 - retireFromDirty
    let retireFromLaundry := min remaining2 cat.inLaundryCount
    let newInLaundryCount := cat.inLaundryCount - retireFromLaundry
    { cat with
        totalOwned := newTotal
        cleanCount := newCleanCount
        dirtyCount := newDirtyCount
        inLaundryCount := newInLaundryCount
        safetyThreshold := jsOr2 (jsCeilDiv newTotal 5)
        maxBatchSize := jsOr2 (jsCeilDiv (2 * newTotal) 5)
        retirementHistory := cat.retirementHistory ++ [{ date := now, count := toRetire, reason := reason }] }

/-- `processItemRetirement(categories, categoryId, count = 1, reason = 'worn_out')`. -/
def processItemRetirement (now : Int) (categories : List Category) (categoryId : String)
    (count : Int := 1) (reason : String := "worn_out") : List Category :=
  categories.map (retireOne now categoryId count reason)

/-- The two values of a Batch `status` field. -/
inductive BatchStatus where
  | in_progress
  | completed
  deriving Repr, DecidableEq, Inhabited

/-- The Batch record of WardrobeEngine.js. -/
structure Batch where
  id : String
  timestamp : Int
  contents : List (String × Int)
  totalItems : Int
  status : BatchStatus
  completedAt : Option Int
  deriving Repr, DecidableEq, Inhabited

/-- Sum of the values of a name-to-count map
(`Object.values(contents).reduce((a, b) => a + b, 0)`). -/
def sumValues (m : List (String × Int)) : Int :=
  (m.map (fun kv => kv.2)).sum

/-- `createBatch(id, contents)`; the creation timestamp is the explicit clock. -/
def createBatch (id : String) (now : Int) (contents : List (String × Int)) : Batch :=
  { id := id
    timestamp := now
    contents := contents
    totalItems := sumValues contents
    status := BatchStatus.in_progress
    completedAt := none }

/-- The slices of provider state that `dispatchLaundry` in WardrobeContext.js
reads and writes. -/
structure WardrobeState where
  categories : List Category
  batches : List Batch
  laundryHistory : List Batch
  bagContents : List (String × Int)
  bagCount : Int
  deriving Repr, DecidableEq

/-- The `Object.keys(bagContentsToDispatch).forEach` validation loop of
`dispatchLaundry`: each positive requested count whose name matches a category
is clamped to that category's `dirtyCount` and kept only if still positive. -/
def validateBag (categories : List Category) (req : List (String × Int)) :
    List (String × Int) :=
  req.foldl
    (fun (acc : List (String × Int)) (kv : String × Int) =>
      if kv.2 ≤ 0 then acc
      else
        match categories.find? (fun c => c.name = kv.1) with
        | none => acc
        | some c =>
          let toDispatch := min kv.2 c.dirtyCount
          if 0 < toDispatch then acc ++ [(kv.1, toDispatch)] else acc)
    []

/-- `dispatchLaundry(bagContentsToDispatch)` from WardrobeContext.js: validates
the request against `dirtyCount`, returns the state unchanged when nothing
survives validation, otherwise appends a batch built from the validated
contents, runs `processBatchDispatch`, prunes zero-owned categories and clears
the bag. -/
def dispatchLaundry (now : Int) (st : WardrobeState)
    (req : List (String × Int)) : WardrobeState :=
  let validated := validateBag st.categories req
  if sumValues validated = 0 then st
  else
    let newBatch := createBatch (s!"BATCH_{now}") now validated
    { st with
        batches := st.batches ++ [newBatch]
        categories :=
          (processBatchDispatch st.categories validated).filter
            (fun c => 0 < c.totalOwned)
        bagContents := []
        bagCount := 0 }

/-- Repair of a single category record.

Modelled from the spec: `validateAndFixCategoryConsistency` is implemented in
`contexts/WardrobeEngine.js`, a file that is not among the provided sources
(only its import and its call site in `contexts/WardrobeContext.js` are).
Following section 4.1 of the spec: every count is clamped to be nonnegative and
`cleanCount + dirtyCount + inLaundryCount == totalOwned` is forced, adjusting
`cleanCount` last (the dirty and in-laundry counts are kept, capped by what the
owned total can accommodate, and `cleanCount` becomes the remainder). -/
def fixCategory (c : Category) : Category :=
  let total := max 0 c.totalOwned
  let dirty := min (max 0 c.dirtyCount) total
  let inLaundry := min (max 0 c.inLaundryCount) (total - dirty)
  let clean := total - dirty - inLaundry
  { c with
      totalOwned := total
      cleanCount := clean
      dirtyCount := dirty
      inLaundryCount := inLaundry }

/-- Modelled from the spec: the consistency-repair pass applied to the loaded
category array (see `fixCategory` for the missing-source note). -/
def validateAndFixCategoryConsistency (categories : List Category) : List Category :=
  categories.map fixCategory

/-- Stable insertion of `a` into `l`, placing `a` before the first element
whose key is not smaller. -/
def stableInsert (key : α → Int) (a : α) : List α → List α
  | [] => [a]
  | b :: bs => if key b < key a then b :: stableInsert key a bs else a :: b :: bs

/-- Stable sort by an integer key.  ES2019 mandates that
`Array.prototype.sort` is stable, so this embeds the two comparator sorts of
the engine (`(a, b) => key(a) - key(b)`). -/
def stableSortBy (key : α → Int) : List α → List α
  | [] => []
  | a :: l => stableInsert key a (stableSortBy key l)

/-- `Math.min(...l)` over rationals, for nonempty call sites. -/
def qListMin : List ℚ → ℚ
  | [] => 0
  | a :: rest => rest.foldl min a

/-- The read-only snapshot a `WardrobeAnalyticsEngine` is constructed from,
together with the ambient clock (`Date.now()` at day granularity). -/
structure Snapshot where
  categories : List Category
  batches : List Batch
  laundryHistory : List Batch
  today : Int
  deriving Repr

/-- The `categories.filter(c => !c.hibernated && c.totalOwned > 0)` filter that
every analytics method starts from. -/
def activeCategories (categories : List Category) : List Category :=
  categories.filter (fun c => !c.hibernated && decide (0 < c.totalOwned))

/-- The `defaultRates` consumption table of `_estimateDailyConsumption`,
with its `|| 0.5` fallback. -/
def defaultRates : String → ℚ
  | "T-Shirts" => 1
  | "Socks" => 1
  | "Underwear" => 1
  | "Shirts" => 7/10
  | "Jeans" => 3/10
  | "Hoodies" => 1/5
  | _ => 1/2

/-- `_estimateDailyConsumption(category)`: with at least 7 wear events, tosses
in the trailing 30 days divided by 30, otherwise the default table. -/
def estimateDailyConsumption (today : Int) (c : Category) : ℚ :=
  if c.wearHistory.length < 7 then defaultRates c.name
  else ((c.wearHistory.filter (fun w => decide (today - 30 < w.date))).length : ℚ) / 30

/-- `_classifyStockoutSeverity(days)`; the source applies it to the raw
(unfloored) quotient. -/
def classifyStockoutSeverity (days : ℚ) : String :=
  if days ≤ 2 then "critical" else if days ≤ 5 then "warning" else "normal"

/-- The record returned by `predictStockout`. -/
structure StockoutPrediction where
  categoryId : String
  categoryName : String
  currentClean : Int
  dailyConsumption : ℚ
  daysUntilStockout : Int
  stockoutDate : Int
  severity : String
  deriving Repr, DecidableEq

/-- `predictStockout(categoryId)`. -/
def predictStockout (s : Snapshot) (categoryId : String) : Option StockoutPrediction :=
  match s.categories.find? (fun c => c.id = categoryId) with
  | none => none
  | some c =>
    if c.hibernated then none
    else
      let dailyConsumption := estimateDailyConsumption s.today c
      if dailyConsumption ≤ 0 then none
      else
        let daysUntilStockout : ℚ := (c.cleanCount : ℚ) / dailyConsumption
        some
          { categoryId := categoryId
            categoryName := c.name
            currentClean := c.cleanCount
            dailyConsumption := (jsRoundQ (dailyConsumption * 100) : ℚ) / 100
            daysUntilStockout := ⌊daysUntilStockout⌋
            stockoutDate := s.today + ⌊daysUntilStockout⌋
            severity := classifyStockoutSeverity daysUntilStockout }

/-- `getAllStockoutPredictions()`: non-null predictions of the non-hibernated
categories, stably sorted ascending by (floored) days remaining. -/
def getAllStockoutPredictions (s : Snapshot) : List StockoutPrediction :=
  stableSortBy (fun p => p.daysUntilStockout)
    ((s.categories.filter (fun c => !c.hibernated)).filterMap
      (fun c => predictStockout s c.id))

/-- One element of the `detectDeadStock()` result. -/
structure DeadStockEntry where
  categoryId : String
  categoryName : String
  daysSinceWorn : Int
  cleanCount : Int
  totalOwned : Int
  deriving Repr, DecidableEq

/-- `detectDeadStock()`: non-hibernated categories with clean stock unworn for
more than 60 days (a null `lastWornDate` reads as the epoch). -/
def detectDeadStock (s : Snapshot) : List DeadStockEntry :=
  (s.categories.filter (fun c => !c.hibernated)).filterMap (fun c =>
    let lastWorn := c.lastWornDate.getD 0
    let daysSinceWorn := s.today - lastWorn
    if 60 < daysSinceWorn ∧ 0 < c.cleanCount then
      some
        { categoryId := c.id
          categoryName := c.name
          daysSinceWorn := daysSinceWorn
          cleanCount := c.cleanCount
          totalOwned := c.totalOwned }
    else none)

/-- The record returned by `calculateInventoryEfficiency()`. -/
structure Efficiency where
  activeItems : Int
  stagnantItems : Int
  totalItems : Int
  efficiencyPercent : Int
  deriving Repr, DecidableEq

/-- `calculateInventoryEfficiency()`. -/
def calculateInventoryEfficiency (s : Snapshot) : Efficiency :=
  let p :=
    (s.categories.filter (fun c => !c.hibernated && decide (0 < c.totalOwned))).foldl
      (fun (acc : Int × Int) c =>
        let itemsInUse := c.dirtyCount + c.inLaundryCount
        let lastWorn := c.lastWornDate.getD 0
        let daysSinceWorn := s.today - lastWorn
        let maxInRotation :=
          if c.maxBatchSize = 0 then jsCeilDiv (2 * c.totalOwned) 5 else c.maxBatchSize
        if 60 < daysSinceWorn then (acc.1, acc.2 + c.totalOwned)
        else
          let cleanInRotation := min c.cleanCount (max 0 (maxInRotation - itemsInUse))
          let categoryActive := itemsInUse + cleanInRotation
          let categoryStagnant := c.totalOwned - categoryActive
          (acc.1 + categoryActive, acc.2 + max 0 categoryStagnant))
      (0, 0)
  let total := p.1 + p.2
  { activeItems := p.1
    stagnantItems := p.2
    totalItems := total
    efficiencyPercent := if 0 < total then jsRoundQ ((p.1 : ℚ) / (total : ℚ) * 100) else 100 }

/-- Adjacent differences of the sorted completion times, keeping only gaps
strictly between 0 and 30 days (the loop body of `_calculateLaundryIntervals`). -/
def intervalsFrom : List Int → List Int
  | a :: b :: rest => (if 0 < b - a ∧ b - a < 30 then [b - a] else []) ++ intervalsFrom (b :: rest)
  | _ => []

/-- `_calculateLaundryIntervals()`. -/
def calculateLaundryIntervals (s : Snapshot) : List Int :=
  if s.laundryHistory.length < 2 then []
  else
    intervalsFrom
      ((stableSortBy (fun b => b.completedAt.getD 0) s.laundryHistory).map
        (fun b => b.completedAt.getD 0))

/-- `_calculateOptimalInterval()`. -/
def calculateOptimalInterval (s : Snapshot) : Int :=
  let active := activeCategories s.categories
  if active.length = 0 then 7
  else
    let bufferDays : List ℚ :=
      active.map (fun c =>
        let dailyUse := estimateDailyConsumption s.today c
        if 0 < dailyUse then ((c.cleanCount : ℚ) - (c.safetyThreshold : ℚ)) / dailyUse else 14)
    let minBuffer := qListMin bufferDays
    max 3 (min 14 ⌊minBuffer⌋)

/-- The record returned by `analyzeLaundryCycles()` (`minInterval` and
`maxInterval` are absent on the no-interval branch). -/
structure CycleAnalysis where
  intervals : List Int
  avgInterval : Int
  optimalInterval : Int
  consistency : String
  recommendation : String
  minInterval : Option Int
  maxInterval : Option Int
  deriving Repr, DecidableEq

/-- `analyzeLaundryCycles()`. -/
def analyzeLaundryCycles (s : Snapshot) : CycleAnalysis :=
  let intervals := calculateLaundryIntervals s
  if intervals.length = 0 then
    { intervals := []
      avgInterval := 0
      optimalInterval := 7
      consistency := "unknown"
      recommendation := "Start tracking your laundry cycles for personalized insights."
      minInterval := none
      maxInterval := none }
  else
    let avgInterval := jsRoundQ ((intervals.sum : ℚ) / (intervals.length : ℚ))
    let minInterval := listMin intervals
    let maxInterval := listMax intervals
    let range := maxInterval - minInterval
    let optimalInterval := calculateOptimalInterval s
    if range ≤ 3 then
      { intervals := intervals
        avgInterval := avgInterval
        optimalInterval := optimalInterval
        consistency := "excellent"
        recommendation := s!"Great consistency! Your {avgInterval}-day cycle is working well."
        minInterval := some minInterval
        maxInterval := some maxInterval }
    else if range ≤ 6 then
      { intervals := intervals
        avgInterval := avgInterval
        optimalInterval := optimalInterval
        consistency := "good"
        recommendation := s!"Good routine. Try to stay closer to {optimalInterval} days for optimal flow."
        minInterval := some minInterval
        maxInterval := some maxInterval }
    else
      { intervals := intervals
        avgInterval := avgInterval
        optimalInterval := optimalInterval
        consistency := "poor"
        recommendation := s!"Your laundry gaps swing from {minInterval} to {maxInterval} days. Aim for every {optimalInterval} days to fix your \"nothing to wear\" feeling."
        minInterval := some minInterval
        maxInterval := some maxInterval }

/-- `_detectImbalance()`: the produced message, when any. -/
def detectImbalance (categories : List Category) : Option String :=
  let active := activeCategories categories
  if active.length < 2 then none
  else
    let cleanCounts := active.map (fun c => (c.name, c.cleanCount))
    let maxClean := listMax (cleanCounts.map (fun nc => nc.2))
    let minClean := listMin (cleanCounts.map (fun nc => nc.2))
    if 5 < maxClean ∧ minClean < 3 then
      match cleanCounts.find? (fun nc => nc.2 = maxClean),
            cleanCounts.find? (fun nc => nc.2 = minClean) with
      | some maxCat, some minCat =>
        let maxLower := maxCat.1.toLower
        let minLower := minCat.1.toLower
        some (s!"You have {maxClean} clean {maxLower} but only {minClean} clean {minLower}. You effectively have only {minClean} outfits available.")
      | _, _ => none
    else none

/-- The weekday table of `_formatDay`; day number 0 (the epoch) is a Thursday,
hence the offset 4. -/
def formatDay (d : Int) : String :=
  (["Sunday", "Monday", "Tuesday", "Wednesday", "Thursday", "Friday", "Saturday"]).getD
    ((d + 4).emod 7).toNat ""

/-- The record returned by `_predictPanicDay()`. -/
structure PanicDay where
  day : String
  category : String
  deriving Repr, DecidableEq

/-- `_predictPanicDay()`: the first prediction at most 3 (floored) days out. -/
def predictPanicDay (s : Snapshot) : Option PanicDay :=
  match (getAllStockoutPredictions s).find? (fun p => p.daysUntilStockout ≤ 3) with
  | some urgent =>
    some { day := formatDay urgent.stockoutDate, category := urgent.categoryName }
  | none => none

/-- One generated insight before its sequential id is attached. -/
structure ProtoInsight where
  urgency : String
  type : String
  title : String
  message : String
  deriving Repr, DecidableEq

/-- The typed alert record of `generateInsights()`. -/
structure Insight where
  id : Nat
  urgency : String
  type : String
  title : String
  message : String
  deriving Repr, DecidableEq

/-- Scan 1 of `generateInsights`: one bottleneck or low-stock insight per
non-normal stockout prediction, in prediction order. -/
def bottleneckInsights (s : Snapshot) : List ProtoInsight :=
  ((getAllStockoutPredictions s).filter (fun p => p.severity ≠ "normal")).map
    (fun p =>
      let cname := p.categoryName
      let clean := p.currentClean
      let itemWord := if p.currentClean = 1 then "item" else "items"
      let dayName := formatDay p.stockoutDate
      { urgency := p.severity
        type := "bottleneck"
        title := if p.severity = "critical" then "Bottleneck Detected" else "Low Stock Warning"
        message := s!"{cname}. You have {clean} {itemWord} left. At your current pace, you reach zero on {dayName}." })

/-- Scan 2 of `generateInsights`: the dead-stock or utilization insight. -/
def deadStockInsights (s : Snapshot) : List ProtoInsight :=
  let efficiency := calculateInventoryEfficiency s
  if 5 < efficiency.stagnantItems then
    let stag := efficiency.stagnantItems
    match (detectDeadStock s).head? with
    | some top =>
      let tot := top.totalOwned
      let cname := top.categoryName
      [{ urgency := "warning"
         type := "deadstock"
         title := "Low Utilization"
         message := s!"You own {tot} {cname} but rarely use them. {stag} items are Dead Stock." }]
    | none =>
      [{ urgency := "warning"
         type := "deadstock"
         title := "Low Utilization"
         message := s!"{stag} items in your wardrobe are rarely worn. Consider donating unused items." }]
  else []

/-- Scan 3 of `generateInsights`: the imbalance insight. -/
def imbalanceInsights (s : Snapshot) : List ProtoInsight :=
  match detectImbalance s.categories with
  | some m =>
    [{ urgency := "warning", type := "imbalance", title := "Inventory Imbalance", message := m }]
  | none => []

/-- Scan 4 of `generateInsights`: the routine-stability insight. -/
def routineInsights (s : Snapshot) : List ProtoInsight :=
  let cycleAnalysis := analyzeLaundryCycles s
  if cycleAnalysis.consistency = "poor" then
    [{ urgency := "insight"
       type := "procrastination"
       title := "Routine Stability: Low"
       message := cycleAnalysis.recommendation }]
  else []

/-- Scan 5 of `generateInsights`: the panic-day forecast. -/
def panicInsights (s : Snapshot) : List ProtoInsight :=
  match predictPanicDay s with
  | some panicDay =>
    let d := panicDay.day
    let c := panicDay.category
    [{ urgency := "critical"
       type := "forecast"
       title := s!"{d} Panic Forecast"
       message := s!"You typically run out of {c} on {d}s. Wash a batch tonight to break the loop." }]
  | none => []

/-- The insight list of `generateInsights()` as generated, before the final
sort: the five scans in their fixed order, with sequential ids starting at 1. -/
def generatedInsights (s : Snapshot) : List Insight :=
  ((bottleneckInsights s ++ deadStockInsights s ++ imbalanceInsights s ++
      routineInsights s ++ panicInsights s).enum).map
    (fun ip =>
      { id := ip.1 + 1
        urgency := ip.2.urgency
        type := ip.2.type
        title := ip.2.title
        message := ip.2.message })

/-- The `urgencyOrder` rank table (`critical` 0, `warning` 1, `insight` 2);
every generated insight carries one of the three keys, so the fallback is
unreachable. -/
def urgencyOrder : String → Int
  | "critical" => 0
  | "warning" => 1
  | "insight" => 2
  | _ => 2

/-- `generateInsights()`: the generated list, stably sorted by urgency rank. -/
def generateInsights (s : Snapshot) : List Insight :=
  stableSortBy (fun i => urgencyOrder i.urgency) (generatedInsights s)

/-- `_calculateCleanRatioScore()`. -/
def cleanRatioScoreQ (categories : List Category) : ℚ :=
  let active := activeCategories categories
  if active.length = 0 then 0
  else
    let totalClean := (active.map (fun c => c.cleanCount)).sum
    let totalOwned := (active.map (fun c => c.totalOwned)).sum
    if totalOwned = 0 then 0 else (totalClean : ℚ) / (totalOwned : ℚ) * 100

/-- `_calculateBalanceScore()`; the standard deviation keeps the value real. -/
noncomputable def balanceScoreR (categories : List Category) : ℝ :=
  let active := activeCategories categories
  if active.length = 0 then 0
  else if active.length < 2 then 100
  else
    let cleanRatios : List ℚ := active.map (fun c => (c.cleanCount : ℚ) / (c.totalOwned : ℚ))
    let avgRatio := cleanRatios.sum / (cleanRatios.length : ℚ)
    let variance := ((cleanRatios.map (fun r => (r - avgRatio) ^ 2)).sum) / (cleanRatios.length : ℚ)
    let stdDev := Real.sqrt (variance : ℝ)
    max 0 (100 - stdDev * 200)

/-- `_calculateBottleneckPenalty()`.  (When `safetyThreshold` is 0 and
`cleanCount` is negative the JS division yields Infinity where rational
division yields 0; that state is unreachable from the transitions and the
final [0,100] clamp of the score is unaffected either way.) -/
def bottleneckPenaltyQ (categories : List Category) : ℚ :=
  let active := activeCategories categories
  let penalty :=
    active.foldl
      (fun (p : ℚ) c =>
        let p1 :=
          if c.cleanCount < c.safetyThreshold then
            p + (1 - (c.cleanCount : ℚ) / (c.safetyThreshold : ℚ)) * 30
          else p
        if c.cleanCount = 0 ∧ 0 < c.totalOwned then p1 + 20 else p1)
      0
  min 100 penalty

/-- `_calculateConsistencyScore()`. -/
noncomputable def consistencyScoreR (s : Snapshot) : ℝ :=
  if s.laundryHistory.length = 0 then 0
  else if s.laundryHistory.length < 3 then 50
  else
    let intervals := calculateLaundryIntervals s
    if intervals.length < 2 then 50
    else
      let avgInterval : ℚ := (intervals.sum : ℚ) / (intervals.length : ℚ)
      let variance : ℚ :=
        ((intervals.map (fun i => ((i : ℚ) - avgInterval) ^ 2)).sum) / (intervals.length : ℚ)
      let coefficientOfVariation : ℝ := Real.sqrt (variance : ℝ) / (avgInterval : ℝ)
      max 0 (100 - coefficientOfVariation * 100)

/-- JS `Math.round` on a real: half-up rounding. -/
noncomputable def jsRoundR (x : ℝ) : Int := ⌊x + 1/2⌋

/-- `calculateFlowScore()`: 0 with no active category, otherwise the weighted
composite rounded and clamped into [0, 100]. -/
noncomputable def calculateFlowScore (s : Snapshot) : Int :=
  if (activeCategories s.categories).length = 0 then 0
  else
    let rawScore : ℝ :=
      (cleanRatioScoreQ s.categories : ℝ) * 0.35 +
      balanceScoreR s.categories * 0.25 -
      (bottleneckPenaltyQ s.categories : ℝ) * 0.25 +
      consistencyScoreR s * 0.15
    max 0 (min 100 (jsRoundR rawScore))

/-! ### Generic facts about the stable sort -/

theorem mem_stableInsert (key : α → Int) (a x : α) (l : List α) :
    x ∈ stableInsert key a l ↔ x = a ∨ x ∈ l := by
  induction l with
  | nil => simp [stableInsert]
  | cons b bs ih =>
    rw [stableInsert]
    by_cases hk : key b < key a
    · rw [if_pos hk]
      simp only [List.mem_cons, ih]
      tauto
    · rw [if_neg hk]
      simp only [List.mem_cons]

theorem pairwise_stableInsert (key : α → Int) (a : α) (l : List α)
    (h : l.Pairwise (fun x y => key x ≤ key y)) :
    (stableInsert key a l).Pairwise (fun x y => key x ≤ key y) := by
  induction l with
  | nil => simp [stableInsert]
  | cons b bs ih =>
    rw [List.pairwise_cons] at h
    obtain ⟨hb, hbs⟩ := h
    rw [stableInsert]
    by_cases hk : key b < key a
    · rw [if_pos hk, List.pairwise_cons]
      refine ⟨fun y hy => ?_, ih hbs⟩
      rcases (mem_stableInsert key a y bs).1 hy with rfl | hy2
      · exact le_of_lt hk
      · exact hb y hy2
    · rw [if_neg hk, List.pairwise_cons]
      refine ⟨fun y hy => ?_, List.pairwise_cons.2 ⟨hb, hbs⟩⟩
      rcases List.mem_cons.1 hy with rfl | hy2
      · exact le_of_not_lt hk
      · exact le_trans (le_of_not_lt hk) (hb y hy2)

theorem pairwise_stableSortBy (key : α → Int) (l : List α) :
    (stableSortBy key l).Pairwise (fun x y => key x ≤ key y) := by
  induction l with
  | nil => exact List.Pairwise.nil
  | cons a l ih => exact pairwise_stableInsert key a _ ih

theorem filter_stableInsert (key : α → Int) (u : Int) (a : α) (l : List α) :
    (stableInsert key a l).filter (fun x => decide (key x = u)) =
      (if key a = u then [a] else []) ++ l.filter (fun x => decide (key x = u)) := by
  induction l with
  | nil =>
    rw [stableInsert]
    by_cases h : key a = u <;> simp [h]
  | cons b bs ih =>
    rw [stableInsert]
    by_cases hk : key b < key a
    · rw [if_pos hk, List.filter_cons, ih]
      by_cases hbu : key b = u
      · have hau : ¬ key a = u := fun h => absurd hk (by rw [h, hbu]; exact lt_irrefl u)
        simp [hbu, hau]
      · simp [hbu]
    · rw [if_neg hk, List.filter_cons]
      by_cases hau : key a = u <;> simp [hau, List.filter_cons]

theorem filter_stableSortBy (key : α → Int) (u : Int) (l : List α) :
    (stableSortBy key l).filter (fun x => decide (key x = u)) =
      l.filter (fun x => decide (key x = u)) := by
  induction l with
  | nil => rfl
  | cons a l ih =>
    rw [stableSortBy, filter_stableInsert, ih, List.filter_cons]
    by_cases h : key a = u <;> simp [h]

/-! ### Claim theorems -/

/-- Claim C9 (confirmed): `generateInsights()` is sorted by urgency rank
`critical (0) < warning (1) < insight (2)`, and within each urgency rank the
returned list preserves the generation scan order (`generatedInsights`
concatenates the five scans: bottleneck or low stock, then dead stock, then
imbalance, then routine stability, then panic forecast). -/
theorem generateInsights_ordering (s : Snapshot) :
    (generateInsights s).Pairwise
      (fun a b => urgencyOrder a.urgency ≤ urgencyOrder b.urgency) ∧
    ∀ u : Int,
      (generateInsights s).filter (fun i => decide (urgencyOrder i.urgency = u)) =
        (generatedInsights s).filter (fun i => decide (urgencyOrder i.urgency = u)) :=
  ⟨pairwise_stableSortBy _ _, fun u => filter_stableSortBy _ u _⟩

/-- Claim C8 (confirmed): `calculateFlowScore()` always lies in [0, 100] and
is exactly 0 when there is no active (non-hibernated, positively owned)
category. -/
theorem calculateFlowScore_bounds (s : Snapshot) :
    0 ≤ calculateFlowScore s ∧ calculateFlowScore s ≤ 100 ∧
      ((activeCategories s.categories).length = 0 → calculateFlowScore s = 0) := by
  unfold calculateFlowScore
  by_cases h : (activeCategories s.categories).length = 0
  · simp [h]
  · rw [if_neg h]
    exact ⟨le_max_left 0 _, max_le (by norm_num) (min_le_left _ _), fun hc => absurd hc h⟩

/-- Witness for C8 at the empty snapshot: the bounds hold and the score is 0. -/
theorem calculateFlowScore_bounds_witness :
    0 ≤ calculateFlowScore { categories := [], batches := [], laundryHistory := [], today := 0 } ∧
    calculateFlowScore { categories := [], batches := [], laundryHistory := [], today := 0 } = 0 :=
  ⟨(calculateFlowScore_bounds _).1, (calculateFlowScore_bounds _).2.2 rfl⟩

/-- The per-category conservation invariant of the data model (section 3 of the
spec): the three state counts are nonnegative and partition `totalOwned`. -/
def Conserved (c : Category) : Prop :=
  c.cleanCount + c.dirtyCount + c.inLaundryCount = c.totalOwned ∧
  0 ≤ c.cleanCount ∧ 0 ≤ c.dirtyCount ∧ 0 ≤ c.inLaundryCount

instance (c : Category) : Decidable (Conserved c) := by
  unfold Conserved
  infer_instance

/-- Sample category used by concrete witnesses: 3 socks, all clean. -/
def sampleSocks : Category := createDefaultCategory "s1" "Socks" "x" 3

/-- Sample category matching the retirement example of the spec:
2 clean, 1 dirty, 1 in laundry, 4 owned. -/
def sampleJeans : Category :=
  { createDefaultCategory "j1" "Jeans" "x" 4 with
      cleanCount := 2, dirtyCount := 1, inLaundryCount := 1 }

/-- Sample mid-cycle category: 3 clean, 5 dirty, 5 in laundry, 13 owned. -/
def sampleHamperSocks : Category :=
  { createDefaultCategory "s1" "Socks" "x" 13 with
      cleanCount := 3, dirtyCount := 5, inLaundryCount := 5 }

/-- Claim C10 (confirmed): `processItemToss` maps `tossOne` over the
collection; a non-matching category is returned unchanged, and a matching
category changes only `wearHistory` (one appended entry whose count is
`min(count, cleanCount)`) and `lastWornDate`, with every other field equal. -/
theorem toss_frame (now : Int) (cats : List Category) (categoryId : String) (count : Int) :
    processItemToss now cats categoryId count = cats.map (tossOne now categoryId count) ∧
    ∀ c ∈ cats,
      (c.id ≠ categoryId → tossOne now categoryId count c = c) ∧
      (c.id = categoryId →
        (tossOne now categoryId count c).wearHistory =
            c.wearHistory ++ [{ date := now, count := min count c.cleanCount }] ∧
        (tossOne now categoryId count c).lastWornDate = some now ∧
        (tossOne now categoryId count c).cleanCount = c.cleanCount ∧
        (tossOne now categoryId count c).dirtyCount = c.dirtyCount ∧
        (tossOne now categoryId count c).inLaundryCount = c.inLaundryCount ∧
        (tossOne now categoryId count c).totalOwned = c.totalOwned ∧
        (tossOne now categoryId count c).safetyThreshold = c.safetyThreshold ∧
        (tossOne now categoryId count c).maxBatchSize = c.maxBatchSize ∧
        (tossOne now categoryId count c).hibernated = c.hibernated ∧
        (tossOne now categoryId count c).id = c.id ∧
        (tossOne now categoryId count c).name = c.name ∧
        (tossOne now categoryId count c).emoji = c.emoji ∧
        (tossOne now categoryId count c).avgWearFrequency = c.avgWearFrequency ∧
        (tossOne now categoryId count c).purchaseHistory = c.purchaseHistory ∧
        (tossOne now categoryId count c).retirementHistory = c.retirementHistory) := by
  refine ⟨rfl, fun c _ => ⟨fun hne => ?_, fun heq => ?_⟩⟩
  · simp [tossOne, hne]
  · simp [tossOne, heq]

/-- Witness for C10: tossing 2 of the 3 clean sample socks appends one wear
entry of count 2 and leaves the clean count alone. -/
theorem toss_frame_witness :
    (tossOne 7 "s1" 2 sampleSocks).wearHistory =
      sampleSocks.wearHistory ++ [{ date := 7, count := min 2 sampleSocks.cleanCount }] ∧
    (tossOne 7 "s1" 2 sampleSocks).cleanCount = sampleSocks.cleanCount ∧
    (tossOne 7 "s1" 2 sampleSocks).dirtyCount = sampleSocks.dirtyCount := by
  have h := ((toss_frame 7 [sampleSocks] "s1" 2).2 sampleSocks
    (List.mem_singleton.2 rfl)).2 rfl
  exact ⟨h.1, h.2.2.1, h.2.2.2.1⟩

/-- Claim C7 (confirmed): with a nonnegative requested count and a valid
(conserved) category, `processItemRetirement` removes exactly
`min(count, totalOwned)` units from `totalOwned`, drawing them from clean
stock first, then dirty, then in-laundry (the closed forms below are the
greedy priority draw), keeps every count nonnegative, preserves the
partition, and records exactly the removed amount in `retirementHistory`. -/
theorem retirement_priority (now : Int) (cats : List Category) (categoryId : String)
    (count : Int) (reason : String) (hcount : 0 ≤ count) :
    processItemRetirement now cats categoryId count reason =
      cats.map (retireOne now categoryId count reason) ∧
    ∀ c ∈ cats, c.id = categoryId → Conserved c →
      (retireOne now categoryId count reason c).totalOwned =
        c.totalOwned - min count c.totalOwned ∧
      min count c.totalOwned ≤ c.totalOwned ∧
      0 ≤ min count c.totalOwned ∧
      (retireOne now categoryId count reason c).cleanCount =
        max 0 (c.cleanCount - min count c.totalOwned) ∧
      (retireOne now categoryId count reason c).dirtyCount =
        max 0 (min c.dirtyCount (c.cleanCount + c.dirtyCount - min count c.totalOwned)) ∧
      (retireOne now categoryId count reason c).inLaundryCount =
        min c.inLaundryCount (c.totalOwned - min count c.totalOwned) ∧
      (retireOne now categoryId count reason c).cleanCount +
          (retireOne now categoryId count reason c).dirtyCount +
          (retireOne now categoryId count reason c).inLaundryCount =
        c.totalOwned - min count c.totalOwned ∧
      0 ≤ (retireOne now categoryId count reason c).cleanCount ∧
      0 ≤ (retireOne now categoryId count reason c).dirtyCount ∧
      0 ≤ (retireOne now categoryId count reason c).inLaundryCount ∧
      (retireOne now categoryId count reason c).retirementHistory =
        c.retirementHistory ++ [{ date := now, count := min count c.totalOwned, reason := reason }] := by
  refine ⟨rfl, fun c _ hid hcons => ?_⟩
  obtain ⟨hsum, hc1, hc2, hc3⟩ := hcons
  have hguard : ¬ c.id ≠ categoryId := fun h => h hid
  simp only [retireOne, if_neg hguard]
  refine ⟨?_, ?_, ?_, ?_, ?_, ?_, ?_, ?_, ?_, ?_, ?_⟩
  all_goals simp only [min_def, max_def]
  all_goals try split_ifs
  all_goals first | rfl | omega

/-- Witness for C7 at the spec example: retiring 3 from the (2, 1, 1, 4)
jeans category yields clean 0, dirty 0, in-laundry 1, owned 1. -/
theorem retirement_priority_witness :
    (retireOne 9 "j1" 3 "worn_out" sampleJeans).cleanCount = 0 ∧
    (retireOne 9 "j1" 3 "worn_out" sampleJeans).dirtyCount = 0 ∧
    (retireOne 9 "j1" 3 "worn_out" sampleJeans).inLaundryCount = 1 ∧
    (retireOne 9 "j1" 3 "worn_out" sampleJeans).totalOwned = 1 := by
  have h := (retirement_priority 9 [sampleJeans] "j1" 3 "worn_out" (by norm_num)).2
    sampleJeans (List.mem_singleton.2 rfl) rfl (by decide)
  refine ⟨?_, ?_, ?_, ?_⟩
  · rw [h.2.2.2.1]; decide
  · rw [h.2.2.2.2.1]; decide
  · rw [h.2.2.2.2.2.1]; decide
  · rw [h.1]; decide

theorem fixCategory_totalOwned (c : Category) :
    (fixCategory c).totalOwned = max 0 c.totalOwned := rfl

theorem fixCategory_dirtyCount (c : Category) :
    (fixCategory c).dirtyCount = min (max 0 c.dirtyCount) (max 0 c.totalOwned) := rfl

theorem fixCategory_inLaundryCount (c : Category) :
    (fixCategory c).inLaundryCount =
      min (max 0 c.inLaundryCount)
        (max 0 c.totalOwned - min (max 0 c.dirtyCount) (max 0 c.totalOwned)) := rfl

theorem fixCategory_cleanCount (c : Category) :
    (fixCategory c).cleanCount =
      max 0 c.totalOwned - min (max 0 c.dirtyCount) (max 0 c.totalOwned) -
        min (max 0 c.inLaundryCount)
          (max 0 c.totalOwned - min (max 0 c.dirtyCount) (max 0 c.totalOwned)) := rfl

/-- Claim C3 (confirmed, spec-modelled): the consistency-repair pass is
idempotent, and every category it returns has nonnegative counts that
partition `totalOwned`.  The repair function itself is modelled from the spec
because its implementation file (contexts/WardrobeEngine.js) is not among the
provided sources. -/
theorem validateAndFix_idempotent (cats : List Category) :
    validateAndFixCategoryConsistency (validateAndFixCategoryConsistency cats) =
      validateAndFixCategoryConsistency cats ∧
    ∀ c ∈ validateAndFixCategoryConsistency cats, Conserved c := by
  constructor
  · unfold validateAndFixCategoryConsistency
    rw [List.map_map]
    apply List.map_congr_left
    intro c _
    show fixCategory (fixCategory c) = fixCategory c
    apply Category.ext <;>
      try simp only [fixCategory_totalOwned, fixCategory_dirtyCount,
        fixCategory_inLaundryCount, fixCategory_cleanCount]
    all_goals first | rfl | omega
  · intro c hc
    obtain ⟨a, _, rfl⟩ := List.mem_map.1 hc
    refine ⟨?_, ?_, ?_, ?_⟩ <;>
      simp only [fixCategory_totalOwned, fixCategory_dirtyCount,
        fixCategory_inLaundryCount, fixCategory_cleanCount] <;>
      omega

/-- Witness for C3: repairing a corrupted record (9 clean, -2 dirty, 1 in
laundry, 5 owned) is idempotent and lands on the invariant. -/
theorem validateAndFix_idempotent_witness :
    validateAndFixCategoryConsistency (validateAndFixCategoryConsistency
        [{ sampleSocks with cleanCount := 9, dirtyCount := -2, inLaundryCount := 1, totalOwned := 5 }]) =
      validateAndFixCategoryConsistency
        [{ sampleSocks with cleanCount := 9, dirtyCount := -2, inLaundryCount := 1, totalOwned := 5 }] ∧
    Conserved (fixCategory
      { sampleSocks with cleanCount := 9, dirtyCount := -2, inLaundryCount := 1, totalOwned := 5 }) := by
  refine ⟨(validateAndFix_idempotent _).1, ?_⟩
  exact (validateAndFix_idempotent
      [{ sampleSocks with cleanCount := 9, dirtyCount := -2, inLaundryCount := 1, totalOwned := 5 }]).2
    _ (List.mem_map.2 ⟨_, List.mem_singleton.2 rfl, rfl⟩)

theorem jsCeilDiv_eq_ceil (a : Int) : jsCeilDiv a 5 = ⌈(a : ℚ) / 5⌉ := by
  have h := Rat.floor_intCast_div_natCast (-a) 5
  have h2 : ⌊-((a : ℚ) / 5)⌋ = -⌈(a : ℚ) / 5⌉ := Int.floor_neg
  have h3 : -((a : ℚ) / 5) = ((-a : ℤ) : ℚ) / ((5 : ℕ) : ℚ) := by push_cast; ring
  have h4 : Int.ediv (-a) 5 = (-a) / (((5 : ℕ)) : ℤ) := rfl
  rw [h3, h] at h2
  unfold jsCeilDiv
  rw [h4]
  omega

theorem jsOr2_jsCeilDiv_pos (m : Int) (hm : 0 < m) :
    jsOr2 (jsCeilDiv m 5) = ⌈(m : ℚ) / 5⌉ ∧
    jsOr2 (jsCeilDiv (2 * m) 5) = ⌈(m : ℚ) * 2 / 5⌉ := by
  have hq : (0 : ℚ) < (m : ℚ) := by exact_mod_cast hm
  have e1 : jsCeilDiv m 5 = ⌈(m : ℚ) / 5⌉ := jsCeilDiv_eq_ceil m
  have e2 : jsCeilDiv (2 * m) 5 = ⌈((2 * m : Int) : ℚ) / 5⌉ := jsCeilDiv_eq_ceil (2 * m)
  have hc : ((2 * m : Int) : ℚ) / 5 = (m : ℚ) * 2 / 5 := by push_cast; ring
  have hpos1 : 0 < ⌈(m : ℚ) / 5⌉ := Int.ceil_pos.2 (div_pos hq (by norm_num))
  have hpos2 : 0 < ⌈(m : ℚ) * 2 / 5⌉ :=
    Int.ceil_pos.2 (div_pos (by linarith) (by norm_num))
  rw [hc] at e2
  constructor
  · rw [e1]; unfold jsOr2; rw [if_neg (by omega)]
  · rw [e2]; unfold jsOr2; rw [if_neg (by omega)]

/-- Counterexample to claim C4: the claim requires `safetyThreshold` and
`maxBatchSize` to be at least 2 whenever `totalOwned > 0`, but the source
computes `Math.ceil(totalOwned * 0.2) || 2`, whose fallback only fires when
the ceiling is 0; a category created with `totalOwned = 3` gets
`safetyThreshold = 1`, and one created with `totalOwned = 1` gets
`maxBatchSize = 1`. -/
theorem threshold_min2_cex :
    (0 : Int) < 3 ∧
    (createDefaultCategory "c1" "Tees" "x" 3).safetyThreshold = 1 ∧
    ¬ 2 ≤ (createDefaultCategory "c1" "Tees" "x" 3).safetyThreshold ∧
    (createDefaultCategory "c1" "Tees" "x" 1).maxBatchSize = 1 ∧
    ¬ 2 ≤ (createDefaultCategory "c1" "Tees" "x" 1).maxBatchSize := by decide

/-- Claim C4 (amended): after creation and after every ownership change, a
category with positive owned total has `safetyThreshold = ceil(totalOwned/5)`
and `maxBatchSize = ceil(totalOwned*2/5)` exactly; the fallback 2 applies only
when the ceiling is 0 (e.g. `totalOwned = 0`), so the thresholds can be 1 and
there is no minimum of 2. -/
theorem threshold_recomputation_amended :
    (∀ id name emoji : String, ∀ n : Int, 0 < n →
      (createDefaultCategory id name emoji n).safetyThreshold = ⌈(n : ℚ) / 5⌉ ∧
      (createDefaultCategory id name emoji n).maxBatchSize = ⌈(n : ℚ) * 2 / 5⌉) ∧
    (∀ id name emoji : String,
      (createDefaultCategory id name emoji 0).safetyThreshold = 2 ∧
      (createDefaultCategory id name emoji 0).maxBatchSize = 2) ∧
    (∀ now : Int, ∀ categoryId : String, ∀ count : Int, ∀ price : ℚ, ∀ c : Category,
      c.id = categoryId → 0 < c.totalOwned + count →
      (acquireOne now categoryId count price c).totalOwned = c.totalOwned + count ∧
      (acquireOne now categoryId count price c).safetyThreshold =
        ⌈((c.totalOwned + count : Int) : ℚ) / 5⌉ ∧
      (acquireOne now categoryId count price c).maxBatchSize =
        ⌈((c.totalOwned + count : Int) : ℚ) * 2 / 5⌉) ∧
    (∀ now : Int, ∀ categoryId reason : String, ∀ count : Int, ∀ c : Category,
      c.id = categoryId →
      0 < (retireOne now categoryId count reason c).totalOwned →
      (retireOne now categoryId count reason c).safetyThreshold =
        ⌈(((retireOne now categoryId count reason c).totalOwned : Int) : ℚ) / 5⌉ ∧
      (retireOne now categoryId count reason c).maxBatchSize =
        ⌈(((retireOne now categoryId count reason c).totalOwned : Int) : ℚ) * 2 / 5⌉) ∧
    (∀ cats : List Category, ∀ now : Int, ∀ categoryId reason : String,
        ∀ count : Int, ∀ price : ℚ,
      processItemAcquisition now cats categoryId count price =
        cats.map (acquireOne now categoryId count price) ∧
      processItemRetirement now cats categoryId count reason =
        cats.map (retireOne now categoryId count reason)) := by
  refine ⟨?_, ?_, ?_, ?_, fun _ _ _ _ _ _ => ⟨rfl, rfl⟩⟩
  · intro id name emoji n hn
    exact ⟨(jsOr2_jsCeilDiv_pos n hn).1, (jsOr2_jsCeilDiv_pos n hn).2⟩
  · intro id name emoji
    exact ⟨rfl, rfl⟩
  · intro now categoryId count price c hid hpos
    have hguard : ¬ c.id ≠ categoryId := fun h => h hid
    simp only [acquireOne, if_neg hguard]
    exact ⟨trivial, (jsOr2_jsCeilDiv_pos _ hpos).1, (jsOr2_jsCeilDiv_pos _ hpos).2⟩
  · intro now categoryId reason count c hid hpos
    have hguard : ¬ c.id ≠ categoryId := fun h => h hid
    simp only [retireOne, if_neg hguard] at hpos ⊢
    exact ⟨(jsOr2_jsCeilDiv_pos _ hpos).1, (jsOr2_jsCeilDiv_pos _ hpos).2⟩

/-- Witness for the amended C4 at concrete inputs: a category created with 3
items has `safetyThreshold = ceil(3/5)` and acquiring 2 more recomputes it as
`ceil(5/5)`. -/
theorem threshold_recomputation_amended_witness :
    (createDefaultCategory "c1" "Tees" "x" 3).safetyThreshold = ⌈((3 : Int) : ℚ) / 5⌉ ∧
    (acquireOne 0 "c1" 2 0 (createDefaultCategory "c1" "Tees" "x" 3)).safetyThreshold =
      ⌈(((createDefaultCategory "c1" "Tees" "x" 3).totalOwned + 2 : Int) : ℚ) / 5⌉ := by
  refine ⟨(threshold_recomputation_amended.1 "c1" "Tees" "x" 3 (by norm_num)).1, ?_⟩
  exact (threshold_recomputation_amended.2.2.1 0 "c1" 2 0
    (createDefaultCategory "c1" "Tees" "x" 3) rfl (by decide)).2.1

/-- A sample provider state used by the context-layer witnesses. -/
def sampleState : WardrobeState :=
  { categories := [sampleHamperSocks]
    batches := []
    laundryHistory := []
    bagContents := [("Socks", 100)]
    bagCount := 100 }

theorem list_map_id_of (l : List α) (f : α → α) (h : ∀ a ∈ l, f a = a) : l.map f = l := by
  rw [List.map_congr_left h]
  exact List.map_id l

theorem validateBag_eq_nil_of_nonpos (cats : List Category) (req : List (String × Int))
    (h : ∀ kv ∈ req, kv.2 ≤ 0) : validateBag cats req = [] := by
  induction req with
  | nil => rfl
  | cons kv rest ih =>
    have hkv : kv.2 ≤ 0 := h kv (List.mem_cons_self kv rest)
    have step : validateBag cats (kv :: rest) = validateBag cats rest := by
      simp only [validateBag, List.foldl_cons, if_pos hkv]
    rw [step]
    exact ih (fun x hx => h x (List.mem_cons_of_mem kv hx))

/-- Counterexample to claim C5: the claim requires a call with a negative
count to leave every category's counts, totals and histories unchanged, but
the engine functions do not guard negative counts: acquiring -1 sock removes
one from clean stock, retiring -2 adds two to the owned total, and tossing -1
appends a wear event of count -1. -/
theorem negative_count_not_noop_cex :
    sampleSocks.cleanCount = 3 ∧
    (processItemAcquisition 0 [sampleSocks] "s1" (-1) 0).headI.cleanCount = 2 ∧
    sampleSocks.totalOwned = 3 ∧
    (processItemRetirement 0 [sampleSocks] "s1" (-2) "worn_out").headI.totalOwned = 5 ∧
    (processItemToss 0 [sampleSocks] "s1" (-1)).headI.wearHistory ≠ sampleSocks.wearHistory := by
  decide

/-- Claim C5 (amended): every transition is a total function (no exception
paths exist in the embedding); a missing or unknown category id is a silent
no-op for toss, acquisition and retirement, a bag or batch map that matches no
category name (or only with amount 0) is a no-op for dispatch and complete,
and the context layer's `dispatchLaundry` drops non-positive requested counts
entirely; but a negative count handed to the engine transition functions is
not a no-op (see the counterexample). -/
theorem malformed_input_amended :
    (∀ now : Int, ∀ cats : List Category, ∀ categoryId reason : String,
        ∀ count : Int, ∀ price : ℚ,
      (∀ c ∈ cats, c.id ≠ categoryId) →
      processItemToss now cats categoryId count = cats ∧
      processItemAcquisition now cats categoryId count price = cats ∧
      processItemRetirement now cats categoryId count reason = cats) ∧
    (∀ cats : List Category, ∀ bag : List (String × Int),
      (∀ c ∈ cats, lookupOr0 bag c.name = 0) →
      processBatchDispatch cats bag = cats ∧
      processBatchComplete cats bag = cats) ∧
    (∀ now : Int, ∀ st : WardrobeState, ∀ req : List (String × Int),
      (∀ kv ∈ req, kv.2 ≤ 0) →
      dispatchLaundry now st req = st) := by
  refine ⟨?_, ?_, ?_⟩
  · intro now cats categoryId reason count price h
    refine ⟨?_, ?_, ?_⟩ <;>
      apply list_map_id_of <;>
      intro c hc
    · simp [tossOne, h c hc]
    · simp [acquireOne, h c hc]
    · simp [retireOne, h c hc]
  · intro cats bag h
    constructor <;> apply list_map_id_of <;> intro c hc
    · simp [dispatchOne, h c hc]
    · simp [completeOne, h c hc]
  · intro now st req h
    unfold dispatchLaundry
    rw [validateBag_eq_nil_of_nonpos st.categories req h]
    rfl

/-- Witness for the amended C5: an unknown id, a bag naming no category, and
an all-negative dispatch request are each no-ops on concrete states. -/
theorem malformed_input_amended_witness :
    processItemToss 0 [sampleSocks] "zz" 5 = [sampleSocks] ∧
    processBatchDispatch [sampleSocks] [("Hats", 4)] = [sampleSocks] ∧
    dispatchLaundry 0 sampleState [("Socks", -3)] = sampleState := by
  refine ⟨(malformed_input_amended.1 0 [sampleSocks] "zz" "r" 5 0 (by decide)).1,
         (malformed_input_amended.2.1 [sampleSocks] [("Hats", 4)] (by decide)).1,
         malformed_input_amended.2.2 0 sampleState [("Socks", -3)] (by decide)⟩

/-- One call to a non-batch transition function (the three transitions that
do preserve the partition invariant). -/
inductive WEvent where
  | toss (now : Int) (categoryId : String) (count : Int)
  | acquire (now : Int) (categoryId : String) (count : Int) (price : ℚ)
  | retire (now : Int) (categoryId : String) (count : Int) (reason : String)
  deriving Repr, DecidableEq

/-- The requested count of an event. -/
def WEvent.countOf : WEvent → Int
  | .toss _ _ n => n
  | .acquire _ _ n _ => n
  | .retire _ _ n _ => n

/-- Dispatching one event to its transition function. -/
def applyEvent (cats : List Category) : WEvent → List Category
  | .toss now categoryId n => processItemToss now cats categoryId n
  | .acquire now categoryId n price => processItemAcquisition now cats categoryId n price
  | .retire now categoryId n reason => processItemRetirement now cats categoryId n reason

/-- A sequence of transition calls. -/
def applyEvents (cats : List Category) (es : List WEvent) : List Category :=
  es.foldl applyEvent cats

theorem conserved_tossOne (now : Int) (categoryId : String) (count : Int)
    (c : Category) (h : Conserved c) : Conserved (tossOne now categoryId count c) := by
  unfold tossOne
  split
  · exact h
  · exact h

theorem conserved_acquireOne (now : Int) (categoryId : String) (count : Int) (price : ℚ)
    (c : Category) (hcount : 0 ≤ count) (h : Conserved c) :
    Conserved (acquireOne now categoryId count price c) := by
  obtain ⟨hs, h1, h2, h3⟩ := h
  by_cases hid : c.id ≠ categoryId
  · simp only [acquireOne, if_pos hid]
    exact ⟨hs, h1, h2, h3⟩
  · unfold Conserved
    simp only [acquireOne, if_neg hid]
    omega

theorem conserved_retireOne (now : Int) (categoryId reason : String) (count : Int)
    (c : Category) (_hcount : 0 ≤ count) (h : Conserved c) :
    Conserved (retireOne now categoryId count reason c) := by
  obtain ⟨hs, h1, h2, h3⟩ := h
  by_cases hid : c.id ≠ categoryId
  · simp only [retireOne, if_pos hid]
    exact ⟨hs, h1, h2, h3⟩
  · unfold Conserved
    simp only [retireOne, if_neg hid]
    omega

theorem conserved_applyEvent (cats : List Category) (e : WEvent)
    (hc : ∀ c ∈ cats, Conserved c) (he : 0 ≤ e.countOf) :
    ∀ c ∈ applyEvent cats e, Conserved c := by
  cases e with
  | toss now categoryId n =>
    intro c hcm
    simp only [applyEvent, processItemToss] at hcm
    obtain ⟨a, ha, rfl⟩ := List.mem_map.1 hcm
    exact conserved_tossOne _ _ _ _ (hc a ha)
  | acquire now categoryId n price =>
    intro c hcm
    simp only [applyEvent, processItemAcquisition] at hcm
    obtain ⟨a, ha, rfl⟩ := List.mem_map.1 hcm
    exact conserved_acquireOne _ _ _ _ _ he (hc a ha)
  | retire now categoryId n reason =>
    intro c hcm
    simp only [applyEvent, processItemRetirement] at hcm
    obtain ⟨a, ha, rfl⟩ := List.mem_map.1 hcm
    exact conserved_retireOne _ _ _ _ _ he (hc a ha)

theorem conserved_applyEvents (cats : List Category) (es : List WEvent)
    (hc : ∀ c ∈ cats, Conserved c) (he : ∀ e ∈ es, 0 ≤ e.countOf) :
    ∀ c ∈ applyEvents cats es, Conserved c := by
  induction es generalizing cats with
  | nil => exact hc
  | cons e rest ih =>
    exact ih (applyEvent cats e)
      (conserved_applyEvent cats e hc (he e (List.mem_cons_self e rest)))
      (fun x hx => he x (List.mem_cons_of_mem e hx))

/-- Counterexample to claim C1: starting from a conserved category (3 clean,
0 dirty, 0 in laundry, 3 owned), a single `processBatchDispatch` of 3 socks
yields counts summing to 6 while `totalOwned` stays 3, so the dispatch does
not preserve `cleanCount + dirtyCount + inLaundryCount == totalOwned`. -/
theorem conservation_fails_on_dispatch_cex :
    Conserved sampleSocks ∧
    (processBatchDispatch [sampleSocks] [("Socks", 3)]).headI.cleanCount +
        (processBatchDispatch [sampleSocks] [("Socks", 3)]).headI.dirtyCount +
        (processBatchDispatch [sampleSocks] [("Socks", 3)]).headI.inLaundryCount = 6 ∧
    (processBatchDispatch [sampleSocks] [("Socks", 3)]).headI.totalOwned = 3 ∧
    ¬ Conserved (processBatchDispatch [sampleSocks] [("Socks", 3)]).headI := by decide

/-- Claim C1 (amended): toss, acquisition and retirement (any sequence, with
nonnegative requested counts) preserve the invariant
`cleanCount + dirtyCount + inLaundryCount == totalOwned` with all three
counts nonnegative; `processBatchDispatch` preserves `totalOwned` and
nonnegativity but adds the dispatched amount `min(requested, cleanCount)` to
the sum of the three counts, so a dispatch that moves a positive amount does
not preserve the equality (in the source model `dirtyCount` includes the
in-laundry items, and `processBatchComplete` later removes the double
count). -/
theorem conservation_amended :
    (∀ cats : List Category, ∀ es : List WEvent,
      (∀ c ∈ cats, Conserved c) → (∀ e ∈ es, 0 ≤ e.countOf) →
      ∀ c ∈ applyEvents cats es, Conserved c) ∧
    (∀ cats : List Category, ∀ bag : List (String × Int),
      processBatchDispatch cats bag = cats.map (dispatchOne bag)) ∧
    (∀ bag : List (String × Int), ∀ c : Category,
      0 ≤ lookupOr0 bag c.name → Conserved c →
      (dispatchOne bag c).totalOwned = c.totalOwned ∧
      0 ≤ (dispatchOne bag c).cleanCount ∧
      0 ≤ (dispatchOne bag c).dirtyCount ∧
      0 ≤ (dispatchOne bag c).inLaundryCount ∧
      (dispatchOne bag c).cleanCount + (dispatchOne bag c).dirtyCount +
          (dispatchOne bag c).inLaundryCount =
        c.totalOwned + min (lookupOr0 bag c.name) c.cleanCount) := by
  refine ⟨conserved_applyEvents, fun _ _ => rfl, ?_⟩
  intro bag c hbag hcons
  obtain ⟨hs, h1, h2, h3⟩ := hcons
  simp only [dispatchOne]
  split_ifs with hz ht
  all_goals refine ⟨?_, ?_, ?_, ?_, ?_⟩
  all_goals dsimp only
  all_goals first | rfl | omega

/-- Witness for the amended C1: a concrete acquire-retire-toss sequence from
a conserved category stays conserved, and a concrete dispatch keeps
`totalOwned`. -/
theorem conservation_amended_witness :
    Conserved ((applyEvents [sampleSocks]
      [WEvent.acquire 0 "s1" 2 0, WEvent.retire 1 "s1" 4 "worn_out",
       WEvent.toss 2 "s1" 1]).headI) ∧
    (dispatchOne [("Socks", 2)] sampleSocks).totalOwned = sampleSocks.totalOwned := by
  constructor
  · exact conservation_amended.1 [sampleSocks]
      [WEvent.acquire 0 "s1" 2 0, WEvent.retire 1 "s1" 4 "worn_out", WEvent.toss 2 "s1" 1]
      (by decide) (by decide) _ (by decide)
  · exact (conservation_amended.2.2 [("Socks", 2)] sampleSocks (by decide) (by decide)).1

/-- The post-clamp dispatched contents of a dispatch: for each category, the
amount actually moved out of clean stock (`min(requested, cleanCount)`),
keyed by category name. -/
def postClampContents (cats : List Category) (bag : List (String × Int)) :
    List (String × Int) :=
  cats.map (fun c => (c.name, min (lookupOr0 bag c.name) c.cleanCount))

theorem lookupOr0_cons_self (k : String) (v : Int) (rest : List (String × Int)) :
    lookupOr0 ((k, v) :: rest) k = v := by
  unfold lookupOr0
  rw [List.find?_cons_of_pos _ (by simp)]

theorem lookupOr0_cons_ne (k q : String) (v : Int) (rest : List (String × Int))
    (h : ¬ k = q) : lookupOr0 ((k, v) :: rest) q = lookupOr0 rest q := by
  unfold lookupOr0
  rw [List.find?_cons_of_neg _ (by simp [h])]

theorem lookupOr0_postClamp (cats : List Category) (bag : List (String × Int))
    (hnames : (cats.map (fun c => c.name)).Nodup) :
    ∀ c ∈ cats, lookupOr0 (postClampContents cats bag) c.name =
      min (lookupOr0 bag c.name) c.cleanCount := by
  induction cats with
  | nil => intro c hc; cases hc
  | cons a rest ih =>
    rw [List.map_cons, List.nodup_cons] at hnames
    obtain ⟨hna, hnr⟩ := hnames
    intro c hc
    rcases List.mem_cons.1 hc with rfl | hcr
    · show lookupOr0 ((c.name, min (lookupOr0 bag c.name) c.cleanCount) :: _) c.name = _
      rw [lookupOr0_cons_self]
    · have hne : ¬ a.name = c.name := fun h =>
        hna (h ▸ List.mem_map.2 ⟨c, hcr, rfl⟩)
      show lookupOr0 ((a.name, _) :: postClampContents rest bag) c.name = _
      rw [lookupOr0_cons_ne _ _ _ _ hne]
      exact ih hnr c hcr

theorem completeOne_dispatchOne (bag m : List (String × Int)) (c : Category)
    (h1 : 0 ≤ c.cleanCount) (h2 : 0 ≤ c.dirtyCount) (h3 : 0 ≤ c.inLaundryCount)
    (hm : lookupOr0 m c.name = min (lookupOr0 bag c.name) c.cleanCount) :
    (completeOne m (dispatchOne bag c)).cleanCount = c.cleanCount ∧
    (completeOne m (dispatchOne bag c)).dirtyCount = c.dirtyCount ∧
    (completeOne m (dispatchOne bag c)).inLaundryCount = c.inLaundryCount ∧
    (completeOne m (dispatchOne bag c)).totalOwned = c.totalOwned ∧
    (completeOne m (dispatchOne bag c)).cleanCount =
      (dispatchOne bag c).cleanCount + min (lookupOr0 bag c.name) c.cleanCount := by
  by_cases hz : lookupOr0 bag c.name = 0
  · have hmin : min (lookupOr0 bag c.name) c.cleanCount = 0 := by omega
    have hd : dispatchOne bag c = c := by simp [dispatchOne, hz]
    have hcc : completeOne m c = c := by simp [completeOne, hm, hmin]
    rw [hd, hcc, hmin]
    exact ⟨rfl, rfl, rfl, rfl, by omega⟩
  · by_cases ht : min (lookupOr0 bag c.name) c.cleanCount = 0
    · have hd : dispatchOne bag c = c := by simp [dispatchOne, hz, ht]
      have hcc : completeOne m c = c := by simp [completeOne, hm, ht]
      rw [hd, hcc, ht]
      exact ⟨rfl, rfl, rfl, rfl, by omega⟩
    · have hd : dispatchOne bag c =
          { c with
              cleanCount := max 0 (c.cleanCount - min (lookupOr0 bag c.name) c.cleanCount)
              dirtyCount := c.dirtyCount + min (lookupOr0 bag c.name) c.cleanCount
              inLaundryCount := c.inLaundryCount + min (lookupOr0 bag c.name) c.cleanCount } := by
        simp [dispatchOne, hz, ht]
      rw [hd]
      simp only [completeOne, hm]
      rw [if_neg ht]
      dsimp only
      refine ⟨?_, ?_, ?_, ?_, ?_⟩ <;> omega

/-- Claim C6 (confirmed): dispatching a bag and then completing with the
post-clamp dispatched contents restores every category's `cleanCount`,
`dirtyCount` and `inLaundryCount` to their pre-dispatch values, the
`cleanCount` restoration being exactly the dispatched amount added back onto
the post-dispatch value (round-trip law); requires nonnegative counts and
pairwise distinct category names (names are the join key). -/
theorem complete_inverts_dispatch (cats : List Category) (bag : List (String × Int))
    (hnn : ∀ c ∈ cats, 0 ≤ c.cleanCount ∧ 0 ≤ c.dirtyCount ∧ 0 ≤ c.inLaundryCount)
    (hnames : (cats.map (fun c => c.name)).Nodup) :
    processBatchComplete (processBatchDispatch cats bag) (postClampContents cats bag) =
      cats.map (fun c => completeOne (postClampContents cats bag) (dispatchOne bag c)) ∧
    ∀ c ∈ cats,
      (completeOne (postClampContents cats bag) (dispatchOne bag c)).cleanCount = c.cleanCount ∧
      (completeOne (postClampContents cats bag) (dispatchOne bag c)).dirtyCount = c.dirtyCount ∧
      (completeOne (postClampContents cats bag) (dispatchOne bag c)).inLaundryCount =
        c.inLaundryCount ∧
      (completeOne (postClampContents cats bag) (dispatchOne bag c)).totalOwned = c.totalOwned ∧
      (completeOne (postClampContents cats bag) (dispatchOne bag c)).cleanCount =
        (dispatchOne bag c).cleanCount + min (lookupOr0 bag c.name) c.cleanCount := by
  constructor
  · unfold processBatchComplete processBatchDispatch
    rw [List.map_map]
    rfl
  · intro c hc
    obtain ⟨h1, h2, h3⟩ := hnn c hc
    exact completeOne_dispatchOne bag (postClampContents cats bag) c h1 h2 h3
      (lookupOr0_postClamp cats bag hnames c hc)

/-- Witness for C6: dispatching 100 requested socks against 3 clean (5 dirty,
5 in laundry) and completing with the post-clamp contents restores the
(3, 5, 5) counts. -/
theorem complete_inverts_dispatch_witness :
    (completeOne (postClampContents [sampleHamperSocks] [("Socks", 100)])
        (dispatchOne [("Socks", 100)] sampleHamperSocks)).cleanCount =
      sampleHamperSocks.cleanCount ∧
    (completeOne (postClampContents [sampleHamperSocks] [("Socks", 100)])
        (dispatchOne [("Socks", 100)] sampleHamperSocks)).dirtyCount =
      sampleHamperSocks.dirtyCount ∧
    (completeOne (postClampContents [sampleHamperSocks] [("Socks", 100)])
        (dispatchOne [("Socks", 100)] sampleHamperSocks)).inLaundryCount =
      sampleHamperSocks.inLaundryCount := by
  have h := (complete_inverts_dispatch [sampleHamperSocks] [("Socks", 100)]
    (by decide) (by decide)).2 sampleHamperSocks (List.mem_singleton.2 rfl)
  exact ⟨h.1, h.2.1, h.2.2.1⟩

theorem validateBag_foldl_mem (cats : List Category) :
    ∀ (req acc : List (String × Int)) (x : String × Int),
      x ∈ req.foldl
        (fun (acc : List (String × Int)) (kv : String × Int) =>
          if kv.2 ≤ 0 then acc
          else
            match cats.find? (fun c => c.name = kv.1) with
            | none => acc
            | some c =>
              let toDispatch := min kv.2 c.dirtyCount
              if 0 < toDispatch then acc ++ [(kv.1, toDispatch)] else acc) acc →
      x ∈ acc ∨ ∃ r : Int, (x.1, r) ∈ req ∧ 0 < r ∧
        ∃ c, c ∈ cats ∧ c.name = x.1 ∧ x.2 = min r c.dirtyCount ∧ 0 < x.2 := by
  intro req
  induction req with
  | nil => intro acc x hx; exact Or.inl hx
  | cons kv rest ih =>
    intro acc x hx
    rw [List.foldl_cons] at hx
    rcases ih _ x hx with hacc | hP
    · by_cases hkv : kv.2 ≤ 0
      · rw [if_pos hkv] at hacc
        exact Or.inl hacc
      · rw [if_neg hkv] at hacc
        cases hfind : cats.find? (fun c => c.name = kv.1) with
        | none =>
          simp only [hfind] at hacc
          exact Or.inl hacc
        | some c =>
          simp only [hfind] at hacc
          by_cases hpos : 0 < min kv.2 c.dirtyCount
          · rw [if_pos hpos] at hacc
            rcases List.mem_append.1 hacc with h | h
            · exact Or.inl h
            · have hx2 := List.mem_singleton.1 h
              subst hx2
              refine Or.inr ⟨kv.2, List.mem_cons_self kv rest, by omega,
                c, List.mem_of_find?_eq_some hfind, ?_, rfl, hpos⟩
              have hp := List.find?_some hfind
              simpa using hp
          · rw [if_neg hpos] at hacc
            exact Or.inl hacc
    · obtain ⟨r, hr, hrpos, hc⟩ := hP
      exact Or.inr ⟨r, List.mem_cons_of_mem kv hr, hrpos, hc⟩

/-- Counterexample to claim C2: against the category with 3 clean and 5 dirty
socks, dispatching a bag requesting 100 moves `min(100, cleanCount) = 3` out
of clean stock, but the Batch the caller creates records
`min(100, dirtyCount) = 5` — the caller `dispatchLaundry` clamps against
`dirtyCount`, not against `cleanCount` — so the Batch does not record the
post-clamp quantity 3. -/
theorem dispatch_batch_records_cex :
    sampleHamperSocks.cleanCount = 3 ∧
    min 100 sampleHamperSocks.cleanCount = 3 ∧
    (dispatchLaundry 0 sampleState [("Socks", 100)]).batches.headI.contents =
      [("Socks", 5)] ∧
    lookupOr0 (dispatchLaundry 0 sampleState [("Socks", 100)]).batches.headI.contents
        "Socks" ≠ min 100 sampleHamperSocks.cleanCount ∧
    (dispatchLaundry 0 sampleState [("Socks", 100)]).categories.headI.cleanCount = 0 := by
  decide

/-- Claim C2 (amended): the engine-level clamp holds — `processBatchDispatch`
moves exactly `min(requested, cleanCount)` out of `cleanCount`, adding that
amount to both `dirtyCount` and `inLaundryCount` and silently dropping the
excess — but the Batch is created by `dispatchLaundry` from the request
clamped against `dirtyCount`, not from the engine's post-clamp quantities:
every recorded entry is `min(requested, dirtyCount)` for some positive
requested amount (so never the raw request), no batch is created when that
validation drops everything, and the recorded quantity can exceed the amount
actually removed from clean stock. -/
theorem dispatch_clamp_amended :
    (∀ cats : List Category, ∀ bag : List (String × Int),
      processBatchDispatch cats bag = cats.map (dispatchOne bag)) ∧
    (∀ bag : List (String × Int), ∀ c : Category, 0 ≤ c.cleanCount →
      (dispatchOne bag c).cleanCount =
        c.cleanCount - min (lookupOr0 bag c.name) c.cleanCount ∧
      (dispatchOne bag c).dirtyCount =
        c.dirtyCount + min (lookupOr0 bag c.name) c.cleanCount ∧
      (dispatchOne bag c).inLaundryCount =
        c.inLaundryCount + min (lookupOr0 bag c.name) c.cleanCount ∧
      (dispatchOne bag c).totalOwned = c.totalOwned) ∧
    (∀ now : Int, ∀ st : WardrobeState, ∀ req : List (String × Int),
      (sumValues (validateBag st.categories req) = 0 → dispatchLaundry now st req = st) ∧
      (sumValues (validateBag st.categories req) ≠ 0 →
        (dispatchLaundry now st req).batches =
          st.batches ++ [createBatch (s!"BATCH_{now}") now (validateBag st.categories req)] ∧
        (dispatchLaundry now st req).categories =
          (processBatchDispatch st.categories (validateBag st.categories req)).filter
            (fun c => 0 < c.totalOwned))) ∧
    (∀ cats : List Category, ∀ req : List (String × Int),
      ∀ kv ∈ validateBag cats req,
      ∃ r : Int, (kv.1, r) ∈ req ∧ 0 < r ∧
        ∃ c, c ∈ cats ∧ c.name = kv.1 ∧ kv.2 = min r c.dirtyCount ∧ 0 < kv.2) := by
  refine ⟨fun _ _ => rfl, ?_, ?_, ?_⟩
  · intro bag c h1
    simp only [dispatchOne]
    split_ifs with hz ht
    all_goals refine ⟨?_, ?_, ?_, ?_⟩
    all_goals dsimp only
    all_goals omega
  · intro now st req
    constructor
    · intro hz
      unfold dispatchLaundry
      rw [if_pos hz]
    · intro hz
      unfold dispatchLaundry
      rw [if_neg hz]
      exact ⟨rfl, rfl⟩
  · intro cats req kv hkv
    rcases validateBag_foldl_mem cats req [] kv hkv with h | h
    · cases h
    · exact h

/-- Witness for the amended C2: the concrete dispatch of 100 requested socks
moves exactly 3 out of clean stock, while the created batch records the
dirty-clamped contents. -/
theorem dispatch_clamp_amended_witness :
    (dispatchOne [("Socks", 100)] sampleHamperSocks).cleanCount =
      sampleHamperSocks.cleanCount -
        min (lookupOr0 [("Socks", 100)] sampleHamperSocks.name)
          sampleHamperSocks.cleanCount ∧
    (dispatchLaundry 0 sampleState [("Socks", 100)]).batches =
      sampleState.batches ++
        [createBatch (s!"BATCH_{(0 : Int)}") 0
          (validateBag sampleState.categories [("Socks", 100)])] := by
  refine ⟨(dispatch_clamp_amended.2.1 [("Socks", 100)] sampleHamperSocks (by decide)).1, ?_⟩
  exact ((dispatch_clamp_amended.2.2.1 0 sampleState [("Socks", 100)]).2 (by decide)).1

end Closetly
